import Mathlib

/-!
Shallow embedding of the todo MCP server core (src/todo_server.py).

The embedding models:
  * the JSON values that appear in the backing file and in tool arguments
    (inductive Json);
  * the Python exceptions relevant to the load path and the tool dispatcher
    (inductive PyErr); fallible code returns Except PyErr;
  * the dataclass TodoItem with its two lifecycle transitions and the
    post-init defaulting of created_at;
  * the class TodoStorage: the in-memory list of items plus the counter
    field next_id (written as a private attribute in the source).  The file
    side effect of save() is modeled by the pure function save, which
    produces exactly the Json document the source serializes; load models
    the constructor and the try/except in TodoStorage.load;
  * the tool dispatcher handle_call_tool, branch by branch, including the
    exact text it renders and the places where it can raise.

Clock values (datetime.now().isoformat()) are passed in as explicit String
parameters named now.  Machine-level caveat: Python attributes are
dynamically typed; this embedding types each dataclass field with the type
of the values the program itself ever stores in it, so functions that read
a Json value into a typed field (getInt, getStr, ...) return typeError on
a value of another shape.  This matches every execution the claims are
about; runs that smuggle an ill-typed value through a field are outside
the model and no theorem below quantifies over them.
-/

namespace TodoSpec

/-- JSON values: the contents of the backing file and of tool arguments. -/
inductive Json where
  | null : Json
  | bool : Bool → Json
  | int : Int → Json
  | str : String → Json
  | arr : List Json → Json
  | obj : List (String × Json) → Json

/-- Python exceptions that the modeled code can raise.  The load path in
the source catches jsonDecodeError and keyError only. -/
inductive PyErr where
  | jsonDecodeError : PyErr
  | keyError : PyErr
  | typeError : PyErr
  | attributeError : PyErr
deriving DecidableEq

/-- The dataclass TodoItem.  Field defaults from the source: description
is the empty string, completed false, created_at the empty string (then
fixed by post-init), completed_at null, priority the string medium. -/
structure TodoItem where
  id : Int
  title : String
  description : String
  completed : Bool
  created_at : String
  completed_at : Option String
  priority : String
deriving DecidableEq

/-- The dataclass field names of TodoItem, in declaration order. -/
def fieldNames : List String :=
  ["id", "title", "description", "completed", "created_at", "completed_at", "priority"]

/-- All attribute names a TodoItem instance exposes: the dataclass fields
plus the two methods (hasattr is true for methods as well). -/
def attrNames : List String := fieldNames ++ ["complete", "uncomplete"]

/-- Models TodoItem.__post_init__: if created_at is falsy (the empty
string), set it to datetime.now().isoformat(), passed here as now. -/
def postInit (t : TodoItem) (now : String) : TodoItem :=
  if t.created_at = "" then { t with created_at := now } else t

/-- Models TodoItem.complete: sets completed to true and completed_at to
the current time. -/
def TodoItem.complete (t : TodoItem) (now : String) : TodoItem :=
  { t with completed := true, completed_at := some now }

/-- Models TodoItem.uncomplete: sets completed to false and completed_at
to null. -/
def TodoItem.uncomplete (t : TodoItem) : TodoItem :=
  { t with completed := false, completed_at := none }

/-- The in-memory state of TodoStorage: the list self.todos and the
counter attribute (named with a leading underscore in the source). -/
structure TodoStorage where
  todos : List TodoItem
  next_id : Int
deriving DecidableEq

/-- The state of a storage constructed with no existing backing file:
empty list, counter 1. -/
def emptyStore : TodoStorage := { todos := [], next_id := 1 }

/-- Models TodoStorage.add_todo: builds a TodoItem from the next counter
value and the arguments (created_at starts empty and post-init sets it to
now), appends it, increments the counter, and returns the new record.
The save() call writes the document produced by save below. -/
def add_todo (s : TodoStorage) (now title description priority : String) :
    TodoStorage × TodoItem :=
  let todo := postInit
    { id := s.next_id, title := title, description := description,
      completed := false, created_at := "", completed_at := none,
      priority := priority } now
  ({ todos := s.todos ++ [todo], next_id := s.next_id + 1 }, todo)

/-- Models TodoStorage.get_todo: first item whose id equals todo_id, else
the absence marker None. -/
def get_todo (s : TodoStorage) (tid : Int) : Option TodoItem :=
  s.todos.find? (fun t => t.id == tid)

/-- Models TodoStorage.get_all_todos: a copy of the list (same elements,
same order). -/
def get_all_todos (s : TodoStorage) : List TodoItem :=
  s.todos

/-- One keyword argument passed to TodoStorage.update_todo.  A constructor
per dataclass field carries a value of the type that field holds at run
time; unknownKey covers every other key (by the typed-field caveat in the
file comment, an unknownKey whose key names a dataclass field is outside
the model; the two method names complete and uncomplete pass hasattr but
setattr on them does not change any dataclass field, so for the field
state modeled here they act as the other unknown keys do). -/
inductive Assign where
  | id : Int → Assign
  | title : String → Assign
  | description : String → Assign
  | completed : Bool → Assign
  | created_at : String → Assign
  | completed_at : Option String → Assign
  | priority : String → Assign
  | unknownKey : String → Json → Assign

/-- Models one iteration of the loop in update_todo: if hasattr(todo, key)
then setattr(todo, key, value).  Keys that are dataclass fields overwrite
that field; other keys leave every dataclass field unchanged. -/
def applyAssign (t : TodoItem) : Assign → TodoItem
  | .id v => { t with id := v }
  | .title v => { t with title := v }
  | .description v => { t with description := v }
  | .completed v => { t with completed := v }
  | .created_at v => { t with created_at := v }
  | .completed_at v => { t with completed_at := v }
  | .priority v => { t with priority := v }
  | .unknownKey _ _ => t

/-- Models the whole kwargs loop of update_todo on one record. -/
def applyAssigns (t : TodoItem) (kwargs : List Assign) : TodoItem :=
  kwargs.foldl applyAssign t

/-- In-place mutation of the object returned by get_todo: replace the
first list element whose id is tid by its image under f. -/
def updateFirst (tid : Int) (f : TodoItem → TodoItem) : List TodoItem → List TodoItem
  | [] => []
  | t :: ts => if t.id == tid then f t :: ts else t :: updateFirst tid f ts

/-- Models TodoStorage.update_todo: find the record, mutate it field by
field with the kwargs, save, return it; None when absent. -/
def update_todo (s : TodoStorage) (tid : Int) (kwargs : List Assign) :
    TodoStorage × Option TodoItem :=
  match get_todo s tid with
  | none => (s, none)
  | some t =>
    ({ s with todos := updateFirst tid (fun u => applyAssigns u kwargs) s.todos },
     some (applyAssigns t kwargs))

/-- Removal of the first list element whose id is tid.  The source runs
self.todos.remove(todo) where todo is the first element with that id;
list.remove deletes the first element equal to todo, and since dataclass
equality compares all fields (id included), no earlier element can be
equal to it, so exactly the first element with that id is removed. -/
def deleteFirst (tid : Int) : List TodoItem → List TodoItem
  | [] => []
  | t :: ts => if t.id == tid then ts else t :: deleteFirst tid ts

/-- Models TodoStorage.delete_todo: remove the record if present and
return true, else return false and leave the list as it is. -/
def delete_todo (s : TodoStorage) (tid : Int) : TodoStorage × Bool :=
  match get_todo s tid with
  | none => (s, false)
  | some _ => ({ s with todos := deleteFirst tid s.todos }, true)

/-- Models TodoStorage.complete_todo: invoke complete() on the found
record (in place), save, and return the record; None when absent. -/
def complete_todo (s : TodoStorage) (tid : Int) (now : String) :
    TodoStorage × Option TodoItem :=
  match get_todo s tid with
  | none => (s, none)
  | some t =>
    ({ s with todos := updateFirst tid (fun u => u.complete now) s.todos },
     some (t.complete now))

/-- Models TodoStorage.uncomplete_todo: invoke uncomplete() on the found
record (in place), save, and return the record; None when absent. -/
def uncomplete_todo (s : TodoStorage) (tid : Int) :
    TodoStorage × Option TodoItem :=
  match get_todo s tid with
  | none => (s, none)
  | some t =>
    ({ s with todos := updateFirst tid (fun u => u.uncomplete) s.todos },
     some t.uncomplete)

/-- Reads a Json value into an Int field (typed-field caveat in the file
comment). -/
def getInt : Json → Except PyErr Int
  | .int n => .ok n
  | _ => .error .typeError

/-- Reads a Json value into a String field. -/
def getStr : Json → Except PyErr String
  | .str s => .ok s
  | _ => .error .typeError

/-- Reads a Json value into a Bool field. -/
def getBool : Json → Except PyErr Bool
  | .bool b => .ok b
  | _ => .error .typeError

/-- Reads a Json value into an optional-String field (null becomes
None). -/
def getOptStr : Json → Except PyErr (Option String)
  | .null => .ok none
  | .str s => .ok (some s)
  | _ => .error .typeError

/-- Models dataclasses.asdict on a TodoItem: an object with all seven
fields, completed_at serialized as null when absent. -/
def asdict (t : TodoItem) : Json :=
  Json.obj
    [("id", Json.int t.id), ("title", Json.str t.title),
     ("description", Json.str t.description),
     ("completed", Json.bool t.completed),
     ("created_at", Json.str t.created_at),
     ("completed_at",
       match t.completed_at with
       | none => Json.null
       | some s => Json.str s),
     ("priority", Json.str t.priority)]

/-- Models TodoStorage.save: the Json document json.dump writes, with the
two top-level keys todos and next_id. -/
def save (s : TodoStorage) : Json :=
  Json.obj
    [("todos", Json.arr (s.todos.map asdict)),
     ("next_id", Json.int s.next_id)]

/-- Reads an optional String constructor argument: the supplied value
when the key was present, the dataclass default otherwise. -/
def readStrField (o : Option Json) (dflt : String) : Except PyErr String :=
  match o with
  | some j => getStr j
  | none => Except.ok dflt

/-- Reads an optional Bool constructor argument. -/
def readBoolField (o : Option Json) (dflt : Bool) : Except PyErr Bool :=
  match o with
  | some j => getBool j
  | none => Except.ok dflt

/-- Reads the optional completed_at constructor argument. -/
def readOptStrField (o : Option Json) : Except PyErr (Option String) :=
  match o with
  | some j => getOptStr j
  | none => Except.ok none

/-- Models TodoItem(**item) followed by __post_init__: every key must be
a dataclass field name and id and title must be present (otherwise Python
raises TypeError for an unexpected or missing constructor argument);
absent optional fields take their declared defaults. -/
def fromDict (kvs : List (String × Json)) (now : String) : Except PyErr TodoItem :=
  if kvs.all (fun kv => fieldNames.contains kv.1) then
    match kvs.lookup "id", kvs.lookup "title" with
    | some idJ, some titleJ =>
      match getInt idJ with
      | .error e => .error e
      | .ok idv =>
      match getStr titleJ with
      | .error e => .error e
      | .ok titlev =>
      match readStrField (kvs.lookup "description") "" with
      | .error e => .error e
      | .ok descv =>
      match readBoolField (kvs.lookup "completed") false with
      | .error e => .error e
      | .ok compv =>
      match readStrField (kvs.lookup "created_at") "" with
      | .error e => .error e
      | .ok createdv =>
      match readOptStrField (kvs.lookup "completed_at") with
      | .error e => .error e
      | .ok completedAtv =>
      match readStrField (kvs.lookup "priority") "medium" with
      | .error e => .error e
      | .ok priov =>
        .ok (postInit
          { id := idv, title := titlev, description := descv,
            completed := compv, created_at := createdv,
            completed_at := completedAtv, priority := priov } now)
    | _, _ => .error .typeError
  else .error .typeError

/-- Models the list comprehension [TodoItem(**item) for item in ...]:
each element must be an object (otherwise the ** unpacking raises
TypeError). -/
def parseItems (now : String) : List Json → Except PyErr (List TodoItem)
  | [] => .ok []
  | Json.obj kvs :: rest =>
    (match fromDict kvs now with
     | .error e => .error e
     | .ok t =>
       match parseItems now rest with
       | .error e => .error e
       | .ok ts => .ok (t :: ts))
  | _ :: _ => .error .typeError

/-- Models data.get(key, default): on a non-object (non-dict) value the
attribute access .get raises AttributeError, which the load path does not
catch. -/
def jGet (j : Json) (key : String) (dflt : Json) : Except PyErr Json :=
  match j with
  | .obj kvs => .ok ((kvs.lookup key).getD dflt)
  | _ => .error .attributeError

/-- What the backing file looks like to the constructor: absent, present
but not valid JSON (json.load raises JSONDecodeError), or present with a
parsed Json value. -/
inductive FileContent where
  | missing : FileContent
  | invalid : FileContent
  | parsed : Json → FileContent

/-- The try-block body of TodoStorage.load on an existing, parseable
file: read the todos array (default empty) and the next_id value
(default 1).  The counter field is typed as an integer per the caveat in
the file comment. -/
def loadTry (j : Json) (now : String) : Except PyErr TodoStorage :=
  match jGet j "todos" (Json.arr []) with
  | .error e => .error e
  | .ok todosJ =>
    match todosJ with
    | Json.arr items =>
      (match parseItems now items with
       | .error e => .error e
       | .ok ts =>
         match jGet j "next_id" (Json.int 1) with
         | .error e => .error e
         | .ok nextJ =>
           match nextJ with
           | Json.int n => .ok { todos := ts, next_id := n }
           | _ => .error .typeError)
    | _ => .error .typeError

/-- Models TodoStorage.load as run by the constructor: a missing file
gives the empty store; the except clause catches JSONDecodeError and
KeyError and resets to the empty store; every other exception propagates
out of the constructor. -/
def load (fc : FileContent) (now : String) : Except PyErr TodoStorage :=
  match fc with
  | .missing => .ok emptyStore
  | .invalid => .ok emptyStore
  | .parsed j =>
    match loadTry j now with
    | .ok s => .ok s
    | .error .jsonDecodeError => .ok emptyStore
    | .error .keyError => .ok emptyStore
    | .error e => .error e

/-- Python equality between a bool attribute and a Json argument value,
as in the filter t.completed == arguments[completed].  In Python True
equals 1 and False equals 0 (bool is an int subtype); values of any other
shape compare unequal to a bool. -/
def pyEqBool (b : Bool) : Json → Bool
  | .bool c => b == c
  | .int n => (if b then (1 : Int) else 0) == n
  | _ => false

/-- Python equality between a str attribute and a Json argument value, as
in the filter t.priority == arguments[priority]. -/
def pyEqStr (s : String) : Json → Bool
  | .str u => s == u
  | _ => false

/-- Models dict subscription arguments[key]: KeyError when absent. -/
def dictGetItem (args : List (String × Json)) (k : String) : Except PyErr Json :=
  match args.lookup k with
  | some v => .ok v
  | none => .error .keyError

/-- Models arguments.get(key, default). -/
def dictGetD (args : List (String × Json)) (k : String) (dflt : Json) : Json :=
  (args.lookup k).getD dflt

/-- The filtering steps of the list_todos branch: if completed is among
the arguments keep the records whose completed field equals the supplied
value, then likewise for priority. -/
def listFiltered (todos : List TodoItem) (arguments : List (String × Json)) :
    List TodoItem :=
  let t1 := match arguments.lookup "completed" with
    | some v => todos.filter (fun t => pyEqBool t.completed v)
    | none => todos
  match arguments.lookup "priority" with
  | some v => t1.filter (fun t => pyEqStr t.priority v)
  | none => t1

/-- The dict lookup with the three priority emoji: subscription on any
other priority string raises KeyError. -/
def priorityEmoji (p : String) : Except PyErr String :=
  if p = "low" then .ok "🔵"
  else if p = "medium" then .ok "🟡"
  else if p = "high" then .ok "🔴"
  else .error .keyError

/-- Models str.title() as applied in the get_todo branch.  On the single
lowercase words this program feeds it (the three priority values reach it
only after the emoji lookup has succeeded) it capitalizes the first
letter, which is what String.capitalize does. -/
def pyTitle (s : String) : String :=
  s.capitalize

/-- The per-record lines of the list_todos branch: status glyph, id,
priority emoji and title, then an indented description line when the
description is truthy (non-empty). -/
def formatTodoLine (t : TodoItem) : Except PyErr (List String) :=
  match priorityEmoji t.priority with
  | .error e => .error e
  | .ok emoji =>
    let line1 := (if t.completed then "✓" else "○") ++ " #" ++ toString t.id
      ++ " " ++ emoji ++ " " ++ t.title
    .ok (if t.description ≠ "" then [line1, "    " ++ t.description] else [line1])

/-- The formatting loop of the list_todos branch over the filtered
records. -/
def formatLines : List TodoItem → Except PyErr (List String)
  | [] => .ok []
  | t :: ts =>
    match formatTodoLine t with
    | .error e => .error e
    | .ok l =>
      match formatLines ts with
      | .error e => .error e
      | .ok rest => .ok (l ++ rest)

/-- Reads one key-value pair of the updates dict built by the
update_todo branch into an Assign (typed-field caveat in the file
comment). -/
def toAssign (k : String) (v : Json) : Except PyErr Assign :=
  if k = "id" then do
    let n ← getInt v
    .ok (.id n)
  else if k = "title" then do
    let x ← getStr v
    .ok (.title x)
  else if k = "description" then do
    let x ← getStr v
    .ok (.description x)
  else if k = "completed" then do
    let x ← getBool v
    .ok (.completed x)
  else if k = "created_at" then do
    let x ← getStr v
    .ok (.created_at x)
  else if k = "completed_at" then do
    let x ← getOptStr v
    .ok (.completed_at x)
  else if k = "priority" then do
    let x ← getStr v
    .ok (.priority x)
  else .ok (.unknownKey k v)

/-- Reads the whole updates dict of the update_todo branch. -/
def toAssigns : List (String × Json) → Except PyErr (List Assign)
  | [] => .ok []
  | (k, v) :: rest => do
    let a ← toAssign k v
    let tl ← toAssigns rest
    .ok (a :: tl)

/-- Models handle_call_tool branch by branch, threading the storage state
and returning the rendered text contents; an .error result is an uncaught
Python exception escaping the handler.  File writes performed by the
storage methods are the save documents of the successive states and are
modeled by save. -/
def handle_call_tool (s : TodoStorage) (now : String) (name : String)
    (arguments : List (String × Json)) :
    Except PyErr (TodoStorage × List String) :=
  if name = "add_todo" then
    match dictGetItem arguments "title" with
    | .error e => .error e
    | .ok titleJ =>
    match getStr titleJ with
    | .error e => .error e
    | .ok title =>
    match getStr (dictGetD arguments "description" (Json.str "")) with
    | .error e => .error e
    | .ok descr =>
    match getStr (dictGetD arguments "priority" (Json.str "medium")) with
    | .error e => .error e
    | .ok prio =>
      let r := add_todo s now title descr prio
      .ok (r.1, ["Added todo item #" ++ toString r.2.id ++ ": " ++ r.2.title])
  else if name = "list_todos" then
    if (listFiltered (get_all_todos s) arguments).isEmpty then
      .ok (s, ["No todos found"])
    else
      match formatLines (listFiltered (get_all_todos s) arguments) with
      | .error e => .error e
      | .ok lines =>
        .ok (s, ["Todo List:\n" ++ String.intercalate "\n" lines])
  else if name = "get_todo" then
    match dictGetItem arguments "id" with
    | .error e => .error e
    | .ok idJ =>
    match getInt idJ with
    | .error e => .error e
    | .ok tid =>
    match get_todo s tid with
    | none => .ok (s, ["Todo item #" ++ toString tid ++ " not found"])
    | some todo =>
      match priorityEmoji todo.priority with
      | .error e => .error e
      | .ok emoji =>
        let status := if todo.completed then "Completed" else "Pending"
        let details :=
          ["Todo #" ++ toString todo.id,
           "Title: " ++ todo.title,
           "Description: "
             ++ (if todo.description ≠ "" then todo.description else "None"),
           "Status: " ++ status,
           "Priority: " ++ emoji ++ " " ++ pyTitle todo.priority,
           "Created: " ++ todo.created_at]
        let details2 := details ++
          (match todo.completed_at with
           | some ca => if ca ≠ "" then ["Completed: " ++ ca] else []
           | none => [])
        .ok (s, [String.intercalate "\n" details2])
  else if name = "update_todo" then
    match dictGetItem arguments "id" with
    | .error e => .error e
    | .ok idJ =>
    match getInt idJ with
    | .error e => .error e
    | .ok tid =>
    match toAssigns (arguments.filter (fun kv => kv.1 != "id")) with
    | .error e => .error e
    | .ok kwargs =>
      match update_todo s tid kwargs with
      | (s2, none) => .ok (s2, ["Todo item #" ++ toString tid ++ " not found"])
      | (s2, some todo) =>
        .ok (s2, ["Updated todo item #" ++ toString todo.id ++ ": " ++ todo.title])
  else if name = "complete_todo" then
    match dictGetItem arguments "id" with
    | .error e => .error e
    | .ok idJ =>
    match getInt idJ with
    | .error e => .error e
    | .ok tid =>
      match complete_todo s tid now with
      | (s2, none) => .ok (s2, ["Todo item #" ++ toString tid ++ " not found"])
      | (s2, some todo) =>
        .ok (s2, ["Completed todo item #" ++ toString todo.id ++ ": " ++ todo.title])
  else if name = "uncomplete_todo" then
    match dictGetItem arguments "id" with
    | .error e => .error e
    | .ok idJ =>
    match getInt idJ with
    | .error e => .error e
    | .ok tid =>
      match uncomplete_todo s tid with
      | (s2, none) => .ok (s2, ["Todo item #" ++ toString tid ++ " not found"])
      | (s2, some todo) =>
        .ok (s2, ["Uncompleted todo item #" ++ toString todo.id ++ ": " ++ todo.title])
  else if name = "delete_todo" then
    match dictGetItem arguments "id" with
    | .error e => .error e
    | .ok idJ =>
    match getInt idJ with
    | .error e => .error e
    | .ok tid =>
      match delete_todo s tid with
      | (s2, false) => .ok (s2, ["Todo item #" ++ toString tid ++ " not found"])
      | (s2, true) => .ok (s2, ["Deleted todo item #" ++ toString tid])
  else
    .ok (s, ["Unknown tool: " ++ name])

/-! Sequences of storage calls, used to state the identifier-assignment
property over interleavings of add and delete. -/

/-- One storage call in a sequence of add and delete operations. -/
inductive StoreOp where
  | addOp : String → String → String → String → StoreOp
  | delOp : Int → StoreOp

/-- The ids of the records returned by the add calls of a sequence, in
call order, starting from state s. -/
def addResults (s : TodoStorage) : List StoreOp → List Int
  | [] => []
  | StoreOp.addOp now title descr prio :: ops =>
    (add_todo s now title descr prio).2.id ::
      addResults (add_todo s now title descr prio).1 ops
  | StoreOp.delOp tid :: ops => addResults (delete_todo s tid).1 ops

/-- The number of add calls in a sequence. -/
def countAdds : List StoreOp → Nat
  | [] => 0
  | StoreOp.addOp _ _ _ _ :: ops => countAdds ops + 1
  | StoreOp.delOp _ :: ops => countAdds ops

/-- The k consecutive integers starting at n. -/
def idsFrom (n : Int) : Nat → List Int
  | 0 => []
  | k + 1 => n :: idsFrom (n + 1) k

lemma postInit_id (t : TodoItem) (now : String) : (postInit t now).id = t.id := by
  unfold postInit
  split <;> rfl

lemma add_todo_snd_id (s : TodoStorage) (now title descr prio : String) :
    (add_todo s now title descr prio).2.id = s.next_id := by
  unfold add_todo
  exact postInit_id _ _

lemma add_todo_fst (s : TodoStorage) (now title descr prio : String) :
    (add_todo s now title descr prio).1
      = { todos := s.todos ++ [(add_todo s now title descr prio).2],
          next_id := s.next_id + 1 } := rfl

lemma delete_todo_next_id (s : TodoStorage) (tid : Int) :
    (delete_todo s tid).1.next_id = s.next_id := by
  unfold delete_todo
  cases get_todo s tid <;> rfl

lemma addResults_eq (ops : List StoreOp) :
    ∀ s : TodoStorage, addResults s ops = idsFrom s.next_id (countAdds ops) := by
  induction ops with
  | nil => intro s; rfl
  | cons op ops ih =>
    intro s
    cases op with
    | addOp now title descr prio =>
      show (add_todo s now title descr prio).2.id ::
          addResults (add_todo s now title descr prio).1 ops
        = idsFrom s.next_id (countAdds ops + 1)
      rw [ih, add_todo_snd_id, add_todo_fst]
      rfl
    | delOp tid =>
      show addResults (delete_todo s tid).1 ops
        = idsFrom s.next_id (countAdds ops)
      rw [ih, delete_todo_next_id]

/-- C1: starting from the empty store, the ids assigned by the add calls
of any interleaved add/delete sequence are exactly 1, 2, 3, ...
(idsFrom 1 of the number of adds), deletes notwithstanding; moreover
every add appends its new record at the end of the collection and
returns that record, whose id is the counter value at the call. -/
theorem c1_add_ids_sequential (ops : List StoreOp) :
    addResults emptyStore ops = idsFrom 1 (countAdds ops) ∧
    ∀ (s : TodoStorage) (now title descr prio : String),
      (add_todo s now title descr prio).1.todos
          = s.todos ++ [(add_todo s now title descr prio).2] ∧
      (add_todo s now title descr prio).2.id = s.next_id := by
  refine ⟨addResults_eq ops emptyStore, ?_⟩
  intro s now title descr prio
  exact ⟨rfl, add_todo_snd_id s now title descr prio⟩

/-! Lemmas about the first-match helpers. -/

lemma find?_eq_none_of_id_not_mem {l : List TodoItem} {tid : Int}
    (h : tid ∉ l.map TodoItem.id) :
    l.find? (fun t => t.id == tid) = none := by
  rw [List.find?_eq_none]
  intro t ht hbeq
  exact h (by simpa using ⟨t, ht, by simpa using hbeq⟩)

lemma find?_deleteFirst_nodup {l : List TodoItem} {tid : Int}
    (h : (l.map TodoItem.id).Nodup) :
    (deleteFirst tid l).find? (fun t => t.id == tid) = none := by
  induction l with
  | nil => rfl
  | cons t ts ih =>
    rw [List.map_cons, List.nodup_cons] at h
    by_cases hid : t.id = tid
    · subst hid
      show (if (t.id == t.id) = true then ts else t :: deleteFirst t.id ts).find?
            (fun u => u.id == t.id) = none
      rw [if_pos (by simp)]
      exact find?_eq_none_of_id_not_mem h.1
    · show (if (t.id == tid) = true then ts else t :: deleteFirst tid ts).find?
            (fun u => u.id == tid) = none
      rw [if_neg (by simpa using hid), List.find?_cons_of_neg _ (by simpa using hid)]
      exact ih h.2

/-- C8: on a store whose record ids are pairwise distinct (the id
uniqueness invariant of the data model), a delete of id followed by a get
of the same id returns the absence marker None; and a delete of an id
with no matching record returns false and leaves the store exactly
unchanged. -/
theorem c8_delete_then_get (s : TodoStorage) (tid : Int)
    (hnodup : (s.todos.map TodoItem.id).Nodup) :
    get_todo (delete_todo s tid).1 tid = none ∧
    (get_todo s tid = none → delete_todo s tid = (s, false)) := by
  constructor
  · cases hfind : get_todo s tid with
    | none =>
      unfold delete_todo
      rw [hfind]
      exact hfind
    | some t =>
      unfold delete_todo
      rw [hfind]
      exact find?_deleteFirst_nodup hnodup
  · intro hnone
    unfold delete_todo
    rw [hnone]

/-- A concrete single-record store used by witnesses below. -/
def exItem1 : TodoItem :=
  { id := 1, title := "Buy milk", description := "", completed := false,
    created_at := "2025-01-01T00:00:00", completed_at := none,
    priority := "high" }

/-- The store holding exactly exItem1, counter at 2. -/
def exStore1 : TodoStorage := { todos := [exItem1], next_id := 2 }

/-- Witness for C8 at a concrete store. -/
theorem c8_delete_then_get_witness :
    get_todo (delete_todo exStore1 1).1 1 = none ∧
    (get_todo exStore1 1 = none → delete_todo exStore1 1 = (exStore1, false)) :=
  c8_delete_then_get exStore1 1 (by decide)

lemma updateFirst_eq_map {l : List TodoItem} {tid : Int}
    (h : (l.map TodoItem.id).Nodup) (f : TodoItem → TodoItem) :
    updateFirst tid f l = l.map (fun u => if u.id = tid then f u else u) := by
  induction l with
  | nil => rfl
  | cons t ts ih =>
    rw [List.map_cons, List.nodup_cons] at h
    by_cases hid : t.id = tid
    · show (if (t.id == tid) = true then f t :: ts else t :: updateFirst tid f ts)
        = (if t.id = tid then f t else t) :: ts.map (fun u => if u.id = tid then f u else u)
      rw [if_pos (by simpa using hid), if_pos hid]
      subst hid
      have hts : ts.map (fun u => if u.id = t.id then f u else u) = ts.map (fun u => u) := by
        apply List.map_congr_left
        intro u hu
        have : u.id ≠ t.id := by
          intro hcontra
          exact h.1 (by simpa [hcontra] using List.mem_map_of_mem TodoItem.id hu)
        rw [if_neg this]
      rw [hts]
      simp
    · show (if (t.id == tid) = true then f t :: ts else t :: updateFirst tid f ts)
        = (if t.id = tid then f t else t) :: ts.map (fun u => if u.id = tid then f u else u)
      rw [if_neg (by simpa using hid), if_neg hid, ih h.2]

lemma find?_map_id_preserving (l : List TodoItem) (g : TodoItem → TodoItem) (tid : Int)
    (hg : ∀ u, (g u).id = u.id) :
    (l.map g).find? (fun t => t.id == tid) = (l.find? (fun t => t.id == tid)).map g := by
  induction l with
  | nil => rfl
  | cons t ts ih =>
    rw [List.map_cons]
    by_cases hid : t.id = tid
    · rw [List.find?_cons_of_pos _ (by simp [hg, hid]),
        List.find?_cons_of_pos _ (by simp [hid])]
      rfl
    · rw [List.find?_cons_of_neg _ (by simp [hg, hid]),
        List.find?_cons_of_neg _ (by simp [hid])]
      exact ih

/-- C7: on a store satisfying the id uniqueness invariant, complete
followed by uncomplete on the same id resets exactly the completed and
completed_at fields of the record with that id (every other field keeps
its value from before the complete call) and leaves every other record
untouched, in place. -/
theorem c7_complete_then_uncomplete (s : TodoStorage) (tid : Int) (now : String)
    (t : TodoItem) (hnodup : (s.todos.map TodoItem.id).Nodup)
    (hget : get_todo s tid = some t) :
    (uncomplete_todo (complete_todo s tid now).1 tid).1.todos
        = s.todos.map (fun u => if u.id = tid
            then { u with completed := false, completed_at := none } else u) ∧
    get_todo (uncomplete_todo (complete_todo s tid now).1 tid).1 tid
        = some { t with completed := false, completed_at := none } := by
  have hgid : ∀ u : TodoItem, ((fun u : TodoItem => if u.id = tid then u.complete now else u) u).id = u.id := by
    intro u
    by_cases hu : u.id = tid <;> simp [TodoItem.complete, hu]
  have hs1 : (complete_todo s tid now).1.todos
      = s.todos.map (fun u => if u.id = tid then u.complete now else u) := by
    unfold complete_todo
    rw [hget]
    exact updateFirst_eq_map hnodup _
  have hs1_ids : (complete_todo s tid now).1.todos.map TodoItem.id = s.todos.map TodoItem.id := by
    rw [hs1, List.map_map]
    apply List.map_congr_left
    intro u _
    exact hgid u
  have hs1_nodup : ((complete_todo s tid now).1.todos.map TodoItem.id).Nodup := by
    rw [hs1_ids]; exact hnodup
  have hgetF : s.todos.find? (fun u => u.id == tid) = some t := hget
  have htid0 := List.find?_some hgetF
  have htid2 : t.id = tid := by simpa using htid0
  have hget1 : get_todo (complete_todo s tid now).1 tid = some (t.complete now) := by
    unfold get_todo
    rw [hs1, find?_map_id_preserving _ _ _ hgid]
    unfold get_todo at hget
    rw [hget]
    simp [htid2]
  have hs2 : (uncomplete_todo (complete_todo s tid now).1 tid).1.todos
      = (complete_todo s tid now).1.todos.map
          (fun u => if u.id = tid then u.uncomplete else u) := by
    unfold uncomplete_todo
    rw [hget1]
    exact updateFirst_eq_map hs1_nodup _
  constructor
  · rw [hs2, hs1, List.map_map]
    apply List.map_congr_left
    intro u _
    by_cases hu : u.id = tid
    · simp only [Function.comp, hu, if_pos rfl, TodoItem.complete]
      simp [TodoItem.uncomplete]
    · simp only [Function.comp, hu, if_neg hu]
      simp [hu]
  · unfold get_todo
    rw [hs2, find?_map_id_preserving _ _ _ (by
      intro u
      by_cases hu : u.id = tid <;> simp [TodoItem.uncomplete, hu])]
    unfold get_todo at hget1
    rw [hget1]
    simp [TodoItem.complete, htid2, TodoItem.uncomplete]

/-- Witness for C7 at a concrete store. -/
theorem c7_complete_then_uncomplete_witness :
    (uncomplete_todo (complete_todo exStore1 1 "2025-01-02T00:00:00").1 1).1.todos
        = exStore1.todos.map (fun u => if u.id = 1
            then { u with completed := false, completed_at := none } else u) ∧
    get_todo (uncomplete_todo (complete_todo exStore1 1 "2025-01-02T00:00:00").1 1).1 1
        = some { exItem1 with completed := false, completed_at := none } :=
  c7_complete_then_uncomplete exStore1 1 "2025-01-02T00:00:00" exItem1
    (by decide) (by decide)

/-- The record-level invariant claimed by the spec: completed_at is
non-null exactly when completed is true, for every record of the
store. -/
def CompletedInv (s : TodoStorage) : Prop :=
  ∀ t ∈ s.todos, t.completed_at.isSome = t.completed

instance (s : TodoStorage) : Decidable (CompletedInv s) := by
  unfold CompletedInv
  infer_instance

/-- A pending record used by counterexamples and witnesses. -/
def exPendingItem : TodoItem :=
  { id := 1, title := "a", description := "", completed := false,
    created_at := "T", completed_at := none, priority := "medium" }

/-- A store holding one pending record (invariant satisfied), counter at
2; used by counterexamples and witnesses. -/
def exPendingStore : TodoStorage :=
  { todos := [exPendingItem], next_id := 2 }

/-- C2 counterexample: on a store satisfying the invariant, the update
operation with the single supplied field completed=true (and no
completed_at) produces a record with completed true and completed_at
null, so the invariant does not survive update with arbitrary supplied
fields. -/
theorem c2_counterexample :
    CompletedInv exPendingStore ∧
    ¬ CompletedInv (update_todo exPendingStore 1 [Assign.completed true]).1 := by
  constructor
  · decide
  · decide

lemma mem_updateFirst {tid : Int} {f : TodoItem → TodoItem} {l : List TodoItem}
    {x : TodoItem} (hx : x ∈ updateFirst tid f l) :
    x ∈ l ∨ ∃ u ∈ l, x = f u := by
  induction l with
  | nil => simp [updateFirst] at hx
  | cons t ts ih =>
    unfold updateFirst at hx
    by_cases h : (t.id == tid) = true
    · rw [if_pos h] at hx
      rcases List.mem_cons.mp hx with h1 | h2
      · exact Or.inr ⟨t, by simp, h1⟩
      · exact Or.inl (List.mem_cons_of_mem _ h2)
    · rw [if_neg h] at hx
      rcases List.mem_cons.mp hx with h1 | h2
      · exact Or.inl (by simp [h1])
      · rcases ih h2 with ha | ⟨u, hu, hxu⟩
        · exact Or.inl (List.mem_cons_of_mem _ ha)
        · exact Or.inr ⟨u, List.mem_cons_of_mem _ hu, hxu⟩

lemma mem_deleteFirst {tid : Int} {l : List TodoItem} {x : TodoItem}
    (hx : x ∈ deleteFirst tid l) : x ∈ l := by
  induction l with
  | nil => simp [deleteFirst] at hx
  | cons t ts ih =>
    unfold deleteFirst at hx
    by_cases h : (t.id == tid) = true
    · rw [if_pos h] at hx
      exact List.mem_cons_of_mem _ hx
    · rw [if_neg h] at hx
      rcases List.mem_cons.mp hx with h1 | h2
      · exact by simp [h1]
      · exact List.mem_cons_of_mem _ (ih h2)

/-- True for the two assignments that write the completion pair. -/
def Assign.touchesCompletion : Assign → Bool
  | .completed _ => true
  | .completed_at _ => true
  | _ => false

/-- True when an unknownKey assignment really names no dataclass field
(the situations the typed embedding represents; see the file comment). -/
def Assign.wfKey : Assign → Bool
  | .unknownKey k _ => !(fieldNames.contains k)
  | _ => true

lemma applyAssign_completion {t : TodoItem} {a : Assign}
    (h1 : a.touchesCompletion = false) :
    (applyAssign t a).completed = t.completed ∧
    (applyAssign t a).completed_at = t.completed_at := by
  cases a <;> simp_all [applyAssign, Assign.touchesCompletion]

lemma applyAssigns_completion {kwargs : List Assign}
    (h : ∀ a ∈ kwargs, a.touchesCompletion = false) :
    ∀ t : TodoItem, (applyAssigns t kwargs).completed = t.completed ∧
      (applyAssigns t kwargs).completed_at = t.completed_at := by
  induction kwargs with
  | nil => intro t; exact ⟨rfl, rfl⟩
  | cons a rest ih =>
    intro t
    have h1 := applyAssign_completion (t := t) (h a (by simp))
    have h2 := ih (fun b hb => h b (by simp [hb])) (applyAssign t a)
    unfold applyAssigns at h2 ⊢
    rw [List.foldl_cons]
    exact ⟨h2.1.trans h1.1, h2.2.trans h1.2⟩

/-- C2 amended: the completed/completed_at invariant is preserved by
add, complete, uncomplete and delete (get and list do not change the
store), and by update whenever none of the supplied fields is completed
or completed_at; the generic update path supplying either of those can
break it (c2_counterexample). -/
theorem c2_amended_invariant (s : TodoStorage) (hinv : CompletedInv s) :
    (∀ now title descr prio, CompletedInv (add_todo s now title descr prio).1) ∧
    (∀ tid now, CompletedInv (complete_todo s tid now).1) ∧
    (∀ tid, CompletedInv (uncomplete_todo s tid).1) ∧
    (∀ tid, CompletedInv (delete_todo s tid).1) ∧
    (∀ tid kwargs,
      (∀ a ∈ kwargs, a.touchesCompletion = false ∧ a.wfKey = true) →
      CompletedInv (update_todo s tid kwargs).1) := by
  refine ⟨?_, ?_, ?_, ?_, ?_⟩
  · intro now title descr prio x hx
    rcases List.mem_append.mp hx with h1 | h2
    · exact hinv x h1
    · have hx2 : x = postInit
          { id := s.next_id, title := title, description := descr,
            completed := false, created_at := "", completed_at := none,
            priority := prio } now := by simpa using h2
      subst hx2
      unfold postInit
      split <;> rfl
  · intro tid now x hx
    cases hg : get_todo s tid with
    | none =>
      unfold complete_todo at hx
      rw [hg] at hx
      exact hinv x hx
    | some t =>
      unfold complete_todo at hx
      rw [hg] at hx
      rcases mem_updateFirst hx with h1 | ⟨u, _, hxu⟩
      · exact hinv x h1
      · subst hxu
        rfl
  · intro tid x hx
    cases hg : get_todo s tid with
    | none =>
      unfold uncomplete_todo at hx
      rw [hg] at hx
      exact hinv x hx
    | some t =>
      unfold uncomplete_todo at hx
      rw [hg] at hx
      rcases mem_updateFirst hx with h1 | ⟨u, _, hxu⟩
      · exact hinv x h1
      · subst hxu
        rfl
  · intro tid x hx
    cases hg : get_todo s tid with
    | none =>
      unfold delete_todo at hx
      rw [hg] at hx
      exact hinv x hx
    | some t =>
      unfold delete_todo at hx
      rw [hg] at hx
      exact hinv x (mem_deleteFirst hx)
  · intro tid kwargs hk x hx
    cases hg : get_todo s tid with
    | none =>
      unfold update_todo at hx
      rw [hg] at hx
      exact hinv x hx
    | some t =>
      unfold update_todo at hx
      rw [hg] at hx
      rcases mem_updateFirst hx with h1 | ⟨u, hu, hxu⟩
      · exact hinv x h1
      · subst hxu
        have hc := applyAssigns_completion (fun a ha => (hk a ha).1) u
        rw [hc.1, hc.2]
        exact hinv u hu

/-- Witness for C2 amended at a concrete store and concrete calls. -/
theorem c2_amended_invariant_witness :
    CompletedInv (add_todo exPendingStore "T2" "b" "" "low").1 ∧
    CompletedInv (complete_todo exPendingStore 1 "T2").1 ∧
    CompletedInv (uncomplete_todo exPendingStore 1).1 ∧
    CompletedInv (delete_todo exPendingStore 1).1 ∧
    CompletedInv (update_todo exPendingStore 1 [Assign.title "c"]).1 :=
  have h := c2_amended_invariant exPendingStore (by decide)
  ⟨h.1 "T2" "b" "" "low", h.2.1 1 "T2", h.2.2.1 1, h.2.2.2.1 1,
   h.2.2.2.2 1 [Assign.title "c"] (by decide)⟩

/-- C5: the list_todos filtering over the collection returned by
get_all_todos: the completed=true filter keeps exactly the records with
completed true, in the original order (the result is a sublist of the
collection); supplying both completed and priority keeps exactly the
records matching both; supplying no filter keeps everything. -/
theorem c5_list_filters (s : TodoStorage) (b : Bool) (p : String) :
    listFiltered (get_all_todos s) [("completed", Json.bool true)]
        = (get_all_todos s).filter (fun t => t.completed) ∧
    listFiltered (get_all_todos s) [("completed", Json.bool b), ("priority", Json.str p)]
        = (get_all_todos s).filter (fun t => t.completed == b && t.priority == p) ∧
    listFiltered (get_all_todos s) [] = get_all_todos s ∧
    (listFiltered (get_all_todos s) [("completed", Json.bool true)]).Sublist
        (get_all_todos s) := by
  have h1 : listFiltered (get_all_todos s) [("completed", Json.bool true)]
      = (get_all_todos s).filter (fun t => t.completed) := by
    show (get_all_todos s).filter (fun t => pyEqBool t.completed (Json.bool true))
        = (get_all_todos s).filter (fun t => t.completed)
    apply List.filter_congr
    intro t _
    simp [pyEqBool]
  refine ⟨h1, ?_, rfl, ?_⟩
  · show ((get_all_todos s).filter (fun t => pyEqBool t.completed (Json.bool b))).filter
          (fun t => pyEqStr t.priority (Json.str p))
        = (get_all_todos s).filter (fun t => t.completed == b && t.priority == p)
    rw [List.filter_filter]
    apply List.filter_congr
    intro t _
    simp [pyEqBool, pyEqStr, Bool.and_comm]
  · rw [h1]
    exact List.filter_sublist _

/-- C6 counterexample: at the storage layer, update_todo with the
supplied field id does overwrite the id of the record (the dispatcher,
not the store, is what strips the id key). -/
theorem c6_counterexample :
    exPendingStore.todos.map TodoItem.id = [1] ∧
    (update_todo exPendingStore 1 [Assign.id 99]).1.todos.map TodoItem.id = [99] := by
  constructor <;> rfl

/-- True exactly for an assignment to the id field. -/
def Assign.isIdAssign : Assign → Bool
  | .id _ => true
  | _ => false

lemma applyAssign_id {t : TodoItem} {a : Assign} (h : a.isIdAssign = false) :
    (applyAssign t a).id = t.id := by
  cases a <;> simp_all [applyAssign, Assign.isIdAssign]

lemma applyAssigns_id {kwargs : List Assign}
    (h : ∀ a ∈ kwargs, a.isIdAssign = false) :
    ∀ t, (applyAssigns t kwargs).id = t.id := by
  induction kwargs with
  | nil => intro t; rfl
  | cons a rest ih =>
    intro t
    have h2 := ih (fun b hb => h b (by simp [hb])) (applyAssign t a)
    unfold applyAssigns at h2 ⊢
    rw [List.foldl_cons]
    exact h2.trans (applyAssign_id (h a (by simp)))

lemma updateFirst_map_id {tid : Int} {f : TodoItem → TodoItem} {l : List TodoItem}
    (hf : ∀ u, (f u).id = u.id) :
    (updateFirst tid f l).map TodoItem.id = l.map TodoItem.id := by
  induction l with
  | nil => rfl
  | cons t ts ih =>
    unfold updateFirst
    by_cases h : (t.id == tid) = true
    · rw [if_pos h]
      simp [hf]
    · rw [if_neg h]
      simp only [List.map_cons, ih]

lemma update_todo_map_id {s : TodoStorage} {tid : Int} {kwargs : List Assign}
    (h : ∀ a ∈ kwargs, a.isIdAssign = false) :
    (update_todo s tid kwargs).1.todos.map TodoItem.id = s.todos.map TodoItem.id := by
  unfold update_todo
  cases hg : get_todo s tid with
  | none => rfl
  | some t => exact updateFirst_map_id (applyAssigns_id h)

lemma toAssign_not_id {k : String} {v : Json} {a : Assign} (hk : k ≠ "id")
    (h : toAssign k v = Except.ok a) : a.isIdAssign = false := by
  unfold toAssign at h
  rw [if_neg hk] at h
  split at h
  · cases hv : getStr v <;> rw [hv] at h <;> cases h
    rfl
  · split at h
    · cases hv : getStr v <;> rw [hv] at h <;> cases h
      rfl
    · split at h
      · cases hv : getBool v <;> rw [hv] at h <;> cases h
        rfl
      · split at h
        · cases hv : getStr v <;> rw [hv] at h <;> cases h
          rfl
        · split at h
          · cases hv : getOptStr v <;> rw [hv] at h <;> cases h
            rfl
          · split at h
            · cases hv : getStr v <;> rw [hv] at h <;> cases h
              rfl
            · cases h
              rfl

lemma toAssigns_not_id {l : List (String × Json)} {kwargs : List Assign}
    (hl : ∀ kv ∈ l, kv.1 ≠ "id") (h : toAssigns l = Except.ok kwargs) :
    ∀ a ∈ kwargs, a.isIdAssign = false := by
  induction l generalizing kwargs with
  | nil =>
    unfold toAssigns at h
    cases h
    intro a ha
    simp at ha
  | cons kv rest ih =>
    unfold toAssigns at h
    cases ha : toAssign kv.1 kv.2 with
    | error e => rw [ha] at h; cases h
    | ok a0 =>
      rw [ha] at h
      cases hrest : toAssigns rest with
      | error e => rw [hrest] at h; cases h
      | ok tl =>
        rw [hrest] at h
        cases h
        intro a haa
        rcases List.mem_cons.mp haa with h1 | h2
        · subst h1
          exact toAssign_not_id (hl kv (by simp)) ha
        · exact ih (fun kv2 hkv2 => hl kv2 (by simp [hkv2])) hrest a h2

lemma applyAssigns_unknown {kwargs : List Assign}
    (h : ∀ a ∈ kwargs, ∃ k j, a = Assign.unknownKey k j) :
    ∀ t, applyAssigns t kwargs = t := by
  induction kwargs with
  | nil => intro t; rfl
  | cons a rest ih =>
    intro t
    obtain ⟨k, j, rfl⟩ := h a (by simp)
    unfold applyAssigns at ih ⊢
    rw [List.foldl_cons]
    exact ih (fun b hb => h b (by simp [hb])) t

lemma updateFirst_congr_id {tid : Int} {f : TodoItem → TodoItem}
    (hf : ∀ u, f u = u) : ∀ l : List TodoItem, updateFirst tid f l = l := by
  intro l
  induction l with
  | nil => rfl
  | cons t ts ih =>
    unfold updateFirst
    by_cases h : (t.id == tid) = true
    · rw [if_pos h, hf]
    · rw [if_neg h, ih]

lemma handle_update_preserves_ids (s : TodoStorage) (now : String)
    (args : List (String × Json)) (s2 : TodoStorage) (out : List String)
    (h : handle_call_tool s now "update_todo" args = Except.ok (s2, out)) :
    s2.todos.map TodoItem.id = s.todos.map TodoItem.id := by
  have h2 : (match dictGetItem args "id" with
      | Except.error e => Except.error e
      | Except.ok idJ =>
        match getInt idJ with
        | Except.error e => Except.error e
        | Except.ok tid =>
          match toAssigns (args.filter (fun kv => kv.1 != "id")) with
          | Except.error e => Except.error e
          | Except.ok kwargs =>
            match update_todo s tid kwargs with
            | (s2x, none) =>
              Except.ok (s2x, ["Todo item #" ++ toString tid ++ " not found"])
            | (s2x, some todo) =>
              Except.ok (s2x,
                ["Updated todo item #" ++ toString todo.id ++ ": " ++ todo.title])
      : Except PyErr (TodoStorage × List String)) = Except.ok (s2, out) := h
  have hfil : ∀ kv ∈ args.filter (fun kv : String × Json => kv.1 != "id"),
      kv.1 ≠ "id" := by
    intro kv hkv
    simpa using List.of_mem_filter hkv
  cases hid : dictGetItem args "id" with
  | error e => rw [hid] at h2; cases h2
  | ok v =>
    rw [hid] at h2
    have h3 : (match getInt v with
        | Except.error e => Except.error e
        | Except.ok tid =>
          match toAssigns (args.filter (fun kv => kv.1 != "id")) with
          | Except.error e => Except.error e
          | Except.ok kwargs =>
            match update_todo s tid kwargs with
            | (s2x, none) =>
              Except.ok (s2x, ["Todo item #" ++ toString tid ++ " not found"])
            | (s2x, some todo) =>
              Except.ok (s2x,
                ["Updated todo item #" ++ toString todo.id ++ ": " ++ todo.title])
        : Except PyErr (TodoStorage × List String)) = Except.ok (s2, out) := h2
    cases hn : getInt v with
    | error e => rw [hn] at h3; cases h3
    | ok tid =>
      rw [hn] at h3
      have h4 : (match toAssigns (args.filter (fun kv => kv.1 != "id")) with
          | Except.error e => Except.error e
          | Except.ok kwargs =>
            match update_todo s tid kwargs with
            | (s2x, none) =>
              Except.ok (s2x, ["Todo item #" ++ toString tid ++ " not found"])
            | (s2x, some todo) =>
              Except.ok (s2x,
                ["Updated todo item #" ++ toString todo.id ++ ": " ++ todo.title])
          : Except PyErr (TodoStorage × List String)) = Except.ok (s2, out) := h3
      cases hkw : toAssigns (args.filter (fun kv => kv.1 != "id")) with
      | error e => rw [hkw] at h4; cases h4
      | ok kwargs =>
        rw [hkw] at h4
        have h5 : (match update_todo s tid kwargs with
            | (s2x, none) =>
              Except.ok (s2x, ["Todo item #" ++ toString tid ++ " not found"])
            | (s2x, some todo) =>
              Except.ok (s2x,
                ["Updated todo item #" ++ toString todo.id ++ ": " ++ todo.title])
            : Except PyErr (TodoStorage × List String)) = Except.ok (s2, out) := h4
        have hnoid := toAssigns_not_id hfil hkw
        cases hu : update_todo s tid kwargs with
        | mk s2x r =>
          rw [hu] at h5
          have hids : s2x.todos.map TodoItem.id = s.todos.map TodoItem.id := by
            have hmap := @update_todo_map_id s tid kwargs hnoid
            rw [hu] at hmap
            exact hmap
          cases r with
          | none => cases h5; exact hids
          | some todo => cases h5; exact hids

/-- C6 amended: the storage-level update overwrites every supplied key
that names a dataclass field, the id field included when an id key is
supplied (c6_counterexample); keys naming no attribute are silently
ignored, leaving the store and the record unchanged; and it is the
dispatch layer that strips the id key, so that through the update_todo
tool the ids of the records never change. -/
theorem c6_amended_update (s : TodoStorage) (tid : Int) (t : TodoItem)
    (hget : get_todo s tid = some t) :
    (∀ v, (update_todo s tid [Assign.title v]).2 = some { t with title := v }) ∧
    (∀ v, (update_todo s tid [Assign.description v]).2
        = some { t with description := v }) ∧
    (∀ v, (update_todo s tid [Assign.priority v]).2 = some { t with priority := v }) ∧
    (∀ v, (update_todo s tid [Assign.completed v]).2 = some { t with completed := v }) ∧
    (∀ v, (update_todo s tid [Assign.created_at v]).2
        = some { t with created_at := v }) ∧
    (∀ v, (update_todo s tid [Assign.completed_at v]).2
        = some { t with completed_at := v }) ∧
    (∀ v, (update_todo s tid [Assign.id v]).2 = some { t with id := v }) ∧
    (∀ kwargs, (∀ a ∈ kwargs, ∃ k j, a = Assign.unknownKey k j) →
        update_todo s tid kwargs = (s, some t)) ∧
    (∀ now args s2 out,
        handle_call_tool s now "update_todo" args = Except.ok (s2, out) →
        s2.todos.map TodoItem.id = s.todos.map TodoItem.id) := by
  refine ⟨?_, ?_, ?_, ?_, ?_, ?_, ?_, ?_, ?_⟩
  · intro v; unfold update_todo; rw [hget]; rfl
  · intro v; unfold update_todo; rw [hget]; rfl
  · intro v; unfold update_todo; rw [hget]; rfl
  · intro v; unfold update_todo; rw [hget]; rfl
  · intro v; unfold update_todo; rw [hget]; rfl
  · intro v; unfold update_todo; rw [hget]; rfl
  · intro v; unfold update_todo; rw [hget]; rfl
  · intro kwargs hk
    unfold update_todo
    rw [hget]
    have h1 : ∀ u, (fun u => applyAssigns u kwargs) u = u :=
      fun u => applyAssigns_unknown hk u
    show ({ s with todos := updateFirst tid (fun u => applyAssigns u kwargs) s.todos },
          some (applyAssigns t kwargs)) = (s, some t)
    rw [updateFirst_congr_id h1 s.todos, applyAssigns_unknown hk t]
  · exact fun now args s2 out h => handle_update_preserves_ids s now args s2 out h

/-- Witness for C6 amended at a concrete store. -/
theorem c6_amended_update_witness :
    (update_todo exPendingStore 1 [Assign.title "z"]).2
        = some { exPendingItem with title := "z" } ∧
    (update_todo exPendingStore 1 [Assign.id 99]).2
        = some { exPendingItem with id := 99 } ∧
    update_todo exPendingStore 1 [Assign.unknownKey "nope" Json.null]
        = (exPendingStore, some exPendingItem) :=
  have h := c6_amended_update exPendingStore 1 exPendingItem rfl
  ⟨h.1 "z", h.2.2.2.2.2.2.1 99,
   h.2.2.2.2.2.2.2.1 [Assign.unknownKey "nope" Json.null]
     (by intro a ha; simp at ha; subst ha; exact ⟨_, _, rfl⟩)⟩

/-! The load path can only raise TypeError or AttributeError once the
JSON text has parsed; in particular the except clause for KeyError in the
source is dead code.  The classifier below and the lemmas up to
load_parsed_ok record this. -/

/-- True for the exceptions the load path does not catch. -/
def uncaught : PyErr → Bool
  | .typeError => true
  | .attributeError => true
  | _ => false

lemma getInt_err {j : Json} {e : PyErr} (h : getInt j = Except.error e) :
    uncaught e = true := by
  cases j <;> cases h <;> rfl

lemma getStr_err {j : Json} {e : PyErr} (h : getStr j = Except.error e) :
    uncaught e = true := by
  cases j <;> cases h <;> rfl

lemma getBool_err {j : Json} {e : PyErr} (h : getBool j = Except.error e) :
    uncaught e = true := by
  cases j <;> cases h <;> rfl

lemma getOptStr_err {j : Json} {e : PyErr} (h : getOptStr j = Except.error e) :
    uncaught e = true := by
  cases j <;> cases h <;> rfl

lemma readStrField_err {o : Option Json} {d : String} {e : PyErr}
    (h : readStrField o d = Except.error e) : uncaught e = true := by
  cases o with
  | none => cases h
  | some j => exact getStr_err h

lemma readBoolField_err {o : Option Json} {d : Bool} {e : PyErr}
    (h : readBoolField o d = Except.error e) : uncaught e = true := by
  cases o with
  | none => cases h
  | some j => exact getBool_err h

lemma readOptStrField_err {o : Option Json} {e : PyErr}
    (h : readOptStrField o = Except.error e) : uncaught e = true := by
  cases o with
  | none => cases h
  | some j => exact getOptStr_err h

lemma fromDict_err {kvs : List (String × Json)} {now : String} {e : PyErr}
    (h : fromDict kvs now = Except.error e) : uncaught e = true := by
  unfold fromDict at h
  repeat' split at h
  all_goals cases h
  all_goals try rfl
  all_goals rename_i heq
  all_goals first
    | exact getInt_err heq
    | exact getStr_err heq
    | exact readStrField_err heq
    | exact readBoolField_err heq
    | exact readOptStrField_err heq

lemma parseItems_err {now : String} {e : PyErr} :
    ∀ {items : List Json}, parseItems now items = Except.error e →
      uncaught e = true := by
  intro items
  induction items with
  | nil => intro h; cases h
  | cons j rest ih =>
    intro h
    cases j with
    | obj kvs =>
      have h2 : (match fromDict kvs now with
          | Except.error e => Except.error e
          | Except.ok t =>
            match parseItems now rest with
            | Except.error e => Except.error e
            | Except.ok ts => Except.ok (t :: ts)) = Except.error e := h
      cases hfd : fromDict kvs now with
      | error e1 =>
        rw [hfd] at h2
        cases h2
        exact fromDict_err hfd
      | ok t =>
        rw [hfd] at h2
        have h3 : (match parseItems now rest with
            | Except.error e => Except.error e
            | Except.ok ts => Except.ok (t :: ts)) = Except.error e := h2
        cases hpi : parseItems now rest with
        | error e2 => rw [hpi] at h3; cases h3; exact ih hpi
        | ok ts => rw [hpi] at h3; cases h3
    | null => cases h; rfl
    | bool b => cases h; rfl
    | int n => cases h; rfl
    | str x => cases h; rfl
    | arr xs => cases h; rfl

lemma jGet_err {j : Json} {key : String} {dflt : Json} {e : PyErr}
    (h : jGet j key dflt = Except.error e) : uncaught e = true := by
  cases j <;> cases h <;> rfl

lemma loadTry_err {j : Json} {now : String} {e : PyErr}
    (h : loadTry j now = Except.error e) : uncaught e = true := by
  unfold loadTry at h
  cases hg : jGet j "todos" (Json.arr []) with
  | error e1 =>
    rw [hg] at h
    cases h
    exact jGet_err hg
  | ok tj =>
    rw [hg] at h
    cases tj with
    | arr items =>
      have h2 : (match parseItems now items with
          | Except.error e => Except.error e
          | Except.ok ts =>
            match jGet j "next_id" (Json.int 1) with
            | Except.error e => Except.error e
            | Except.ok nextJ =>
              match nextJ with
              | Json.int n => Except.ok ({ todos := ts, next_id := n } : TodoStorage)
              | _ => Except.error PyErr.typeError) = Except.error e := h
      cases hpi : parseItems now items with
      | error e2 =>
        rw [hpi] at h2
        cases h2
        exact parseItems_err hpi
      | ok ts =>
        rw [hpi] at h2
        have h3 : (match jGet j "next_id" (Json.int 1) with
            | Except.error e => Except.error e
            | Except.ok nextJ =>
              match nextJ with
              | Json.int n => Except.ok ({ todos := ts, next_id := n } : TodoStorage)
              | _ => Except.error PyErr.typeError) = Except.error e := h2
        cases hg2 : jGet j "next_id" (Json.int 1) with
        | error e3 =>
          rw [hg2] at h3
          cases h3
          exact jGet_err hg2
        | ok nj =>
          rw [hg2] at h3
          cases nj <;> cases h3 <;> rfl
    | null => cases h; rfl
    | bool b => cases h; rfl
    | int n => cases h; rfl
    | str x => cases h; rfl
    | obj kvs => cases h; rfl

lemma load_parsed_ok {j : Json} {now : String} {s : TodoStorage}
    (h : load (FileContent.parsed j) now = Except.ok s) :
    loadTry j now = Except.ok s := by
  have h2 : (match loadTry j now with
      | Except.ok s0 => Except.ok s0
      | Except.error PyErr.jsonDecodeError => Except.ok emptyStore
      | Except.error PyErr.keyError => Except.ok emptyStore
      | Except.error e => Except.error e) = Except.ok s := h
  cases hlt : loadTry j now with
  | ok s0 =>
    rw [hlt] at h2
    cases h2
    rfl
  | error e =>
    have hu := loadTry_err hlt
    rw [hlt] at h2
    cases e <;> simp [uncaught] at hu <;> cases h2

lemma postInit_of_ne {t : TodoItem} (now : String) (h : t.created_at ≠ "") :
    postInit t now = t := by
  unfold postInit
  rw [if_neg h]

lemma fromDict_asdict (t : TodoItem) (now2 : String) (hne : t.created_at ≠ "") :
    fromDict [("id", Json.int t.id), ("title", Json.str t.title),
      ("description", Json.str t.description),
      ("completed", Json.bool t.completed),
      ("created_at", Json.str t.created_at),
      ("completed_at", match t.completed_at with
        | none => Json.null
        | some x => Json.str x),
      ("priority", Json.str t.priority)] now2 = Except.ok t := by
  cases hca : t.completed_at with
  | none =>
    show Except.ok (postInit
      { id := t.id, title := t.title, description := t.description,
        completed := t.completed, created_at := t.created_at,
        completed_at := none, priority := t.priority } now2) = Except.ok t
    rw [← hca]
    have heta :
        ({ id := t.id, title := t.title, description := t.description,
           completed := t.completed, created_at := t.created_at,
           completed_at := t.completed_at, priority := t.priority } : TodoItem)
          = t := rfl
    rw [heta]
    rw [postInit_of_ne now2 hne]
  | some x =>
    show Except.ok (postInit
      { id := t.id, title := t.title, description := t.description,
        completed := t.completed, created_at := t.created_at,
        completed_at := some x, priority := t.priority } now2) = Except.ok t
    rw [← hca]
    have heta :
        ({ id := t.id, title := t.title, description := t.description,
           completed := t.completed, created_at := t.created_at,
           completed_at := t.completed_at, priority := t.priority } : TodoItem)
          = t := rfl
    rw [heta]
    rw [postInit_of_ne now2 hne]

lemma parseItems_asdict (now2 : String) :
    ∀ l : List TodoItem, (∀ t ∈ l, t.created_at ≠ "") →
      parseItems now2 (l.map asdict) = Except.ok l := by
  intro l
  induction l with
  | nil => intro h; rfl
  | cons t ts ih =>
    intro h
    have hfd := fromDict_asdict t now2 (h t (by simp))
    show (match fromDict [("id", Json.int t.id), ("title", Json.str t.title),
        ("description", Json.str t.description),
        ("completed", Json.bool t.completed),
        ("created_at", Json.str t.created_at),
        ("completed_at", match t.completed_at with
          | none => Json.null
          | some x => Json.str x),
        ("priority", Json.str t.priority)] now2 with
      | Except.error e => Except.error e
      | Except.ok u =>
        match parseItems now2 (ts.map asdict) with
        | Except.error e => Except.error e
        | Except.ok us => Except.ok (u :: us)) = Except.ok (t :: ts)
    rw [hfd]
    have hts := ih (fun u hu => h u (by simp [hu]))
    show (match parseItems now2 (ts.map asdict) with
      | Except.error e => Except.error e
      | Except.ok us => Except.ok (t :: us)) = Except.ok (t :: ts)
    rw [hts]

lemma loadTry_save (s : TodoStorage) (now2 : String)
    (h : ∀ t ∈ s.todos, t.created_at ≠ "") :
    loadTry (save s) now2 = Except.ok s := by
  show (match parseItems now2 (s.todos.map asdict) with
      | Except.error e => Except.error e
      | Except.ok ts =>
        Except.ok ({ todos := ts, next_id := s.next_id } : TodoStorage))
    = Except.ok s
  rw [parseItems_asdict now2 s.todos h]

lemma load_save (s : TodoStorage) (now2 : String)
    (h : ∀ t ∈ s.todos, t.created_at ≠ "") :
    load (FileContent.parsed (save s)) now2 = Except.ok s := by
  show (match loadTry (save s) now2 with
      | Except.ok s0 => Except.ok s0
      | Except.error PyErr.jsonDecodeError => Except.ok emptyStore
      | Except.error PyErr.keyError => Except.ok emptyStore
      | Except.error e => Except.error e) = Except.ok s
  rw [loadTry_save s now2 h]

/-- One call to add_todo: the clock string and the three arguments. -/
structure AddCall where
  now : String
  title : String
  descr : String
  prio : String

/-- Runs a sequence of add_todo calls. -/
def runAdds (s : TodoStorage) : List AddCall → TodoStorage
  | [] => s
  | c :: cs => runAdds (add_todo s c.now c.title c.descr c.prio).1 cs

lemma add_todo_created_at {s : TodoStorage} {now title descr prio : String}
    (hs : ∀ t ∈ s.todos, t.created_at ≠ "") (hnow : now ≠ "") :
    ∀ t ∈ (add_todo s now title descr prio).1.todos, t.created_at ≠ "" := by
  intro t ht
  have ht2 : t ∈ s.todos ++ [postInit
      { id := s.next_id, title := title, description := descr,
        completed := false, created_at := "", completed_at := none,
        priority := prio } now] := ht
  rcases List.mem_append.mp ht2 with h1 | h2
  · exact hs t h1
  · have h3 : t = postInit
        { id := s.next_id, title := title, description := descr,
          completed := false, created_at := "", completed_at := none,
          priority := prio } now := by simpa using h2
    subst h3
    show (postInit
      { id := s.next_id, title := title, description := descr,
        completed := false, created_at := "", completed_at := none,
        priority := prio } now).created_at ≠ ""
    unfold postInit
    rw [if_pos rfl]
    exact hnow

lemma runAdds_created_at :
    ∀ (cs : List AddCall), (∀ c ∈ cs, c.now ≠ "") →
    ∀ s : TodoStorage, (∀ t ∈ s.todos, t.created_at ≠ "") →
      ∀ t ∈ (runAdds s cs).todos, t.created_at ≠ "" := by
  intro cs
  induction cs with
  | nil => intro _ s hs; exact hs
  | cons c cs ih =>
    intro hcs s hs
    exact ih (fun d hd => hcs d (by simp [hd]))
      (add_todo s c.now c.title c.descr c.prio).1
      (add_todo_created_at hs (hcs c (by simp)))

/-- C3: running any sequence of add calls from the empty store (with the
non-empty clock strings datetime.now().isoformat() produces) and then
constructing a second store from the backing document the last save wrote
yields exactly the same ordered collection and the same counter. -/
theorem c3_persistence_roundtrip (cs : List AddCall)
    (hcs : ∀ c ∈ cs, c.now ≠ "") (now2 : String) :
    load (FileContent.parsed (save (runAdds emptyStore cs))) now2
      = Except.ok (runAdds emptyStore cs) := by
  apply load_save
  apply runAdds_created_at cs hcs emptyStore
  intro t ht
  simp [emptyStore] at ht

/-- Witness for C3 with one concrete add call. -/
theorem c3_persistence_roundtrip_witness :
    load (FileContent.parsed (save (runAdds emptyStore
        [{ now := "T1", title := "a", descr := "", prio := "medium" }]))) "T9"
      = Except.ok (runAdds emptyStore
          [{ now := "T1", title := "a", descr := "", prio := "medium" }]) :=
  c3_persistence_roundtrip
    [{ now := "T1", title := "a", descr := "", prio := "medium" }]
    (by intro c hc; simp at hc; subst hc; decide) "T9"

/-- C4 counterexample: two backing files that parse as JSON but have the
wrong structure and make the constructor raise rather than yield an empty
store: a top-level array (AttributeError from .get) and a todo item with
an unexpected key (TypeError from the constructor call). -/
theorem c4_counterexample :
    load (FileContent.parsed (Json.arr [])) "T"
        = Except.error PyErr.attributeError ∧
    load (FileContent.parsed (Json.obj
        [("todos", Json.arr [Json.obj [("bogus", Json.int 1)]]),
         ("next_id", Json.int 1)])) "T"
      = Except.error PyErr.typeError := by
  constructor <;> rfl

/-- C4 amended: a missing file or one whose contents fail to parse as
JSON (JSONDecodeError) yields the empty store with counter 1 and no
error; but a file that parses with the wrong structure can propagate an
uncaught exception (only JSONDecodeError and KeyError are caught). -/
theorem c4_amended_load (now : String) :
    load FileContent.invalid now = Except.ok emptyStore ∧
    load FileContent.missing now = Except.ok emptyStore ∧
    load (FileContent.parsed (Json.arr [])) now
      = Except.error PyErr.attributeError :=
  ⟨rfl, rfl, rfl⟩

/-- A well-formed backing file whose next_id (3) is smaller than the
stored record id (5): not greater than every stored id, yet colliding
with none of them. -/
def c10File : Json :=
  Json.obj [("todos", Json.arr [Json.obj
      [("id", Json.int 5), ("title", Json.str "a")]]),
    ("next_id", Json.int 3)]

/-- The store the constructor builds from c10File at clock T. -/
def c10Store : TodoStorage :=
  { todos := [{ id := 5, title := "a", description := "", completed := false,
                created_at := "T", completed_at := none, priority := "medium" }],
    next_id := 3 }

/-- C10 counterexample: loading c10File yields counter 3 with stored id 5
(the counter is not greater than every stored id), yet the next add call
assigns id 3, which is not present in the collection, so the claimed
consequence fails on this file. -/
theorem c10_counterexample :
    load (FileContent.parsed c10File) "T" = Except.ok c10Store ∧
    c10Store.next_id = 3 ∧
    c10Store.todos.map TodoItem.id = [5] ∧
    (add_todo c10Store "T2" "b" "" "medium").2.id = 3 ∧
    ¬ (add_todo c10Store "T2" "b" "" "medium").2.id
        ∈ c10Store.todos.map TodoItem.id := by
  refine ⟨rfl, rfl, rfl, rfl, ?_⟩
  decide

lemma loadTry_next_id {kvs : List (String × Json)} {now : String}
    {s : TodoStorage} (h : loadTry (Json.obj kvs) now = Except.ok s) :
    Json.int s.next_id = (kvs.lookup "next_id").getD (Json.int 1) := by
  have h2 : (match (kvs.lookup "todos").getD (Json.arr []) with
      | Json.arr items =>
        (match parseItems now items with
         | Except.error e => Except.error e
         | Except.ok ts =>
           match jGet (Json.obj kvs) "next_id" (Json.int 1) with
           | Except.error e => Except.error e
           | Except.ok nextJ =>
             match nextJ with
             | Json.int n => Except.ok ({ todos := ts, next_id := n } : TodoStorage)
             | _ => Except.error PyErr.typeError)
      | _ => Except.error PyErr.typeError) = Except.ok s := h
  cases htd : (kvs.lookup "todos").getD (Json.arr []) with
  | arr items =>
    rw [htd] at h2
    have h3 : (match parseItems now items with
        | Except.error e => Except.error e
        | Except.ok ts =>
          match jGet (Json.obj kvs) "next_id" (Json.int 1) with
          | Except.error e => Except.error e
          | Except.ok nextJ =>
            match nextJ with
            | Json.int n => Except.ok ({ todos := ts, next_id := n } : TodoStorage)
            | _ => Except.error PyErr.typeError) = Except.ok s := h2
    cases hpi : parseItems now items with
    | error e => rw [hpi] at h3; cases h3
    | ok ts =>
      rw [hpi] at h3
      have h4 : (match (kvs.lookup "next_id").getD (Json.int 1) with
          | Json.int n => Except.ok ({ todos := ts, next_id := n } : TodoStorage)
          | _ => Except.error PyErr.typeError) = Except.ok s := h3
      cases hni : (kvs.lookup "next_id").getD (Json.int 1) with
      | int n2 =>
        rw [hni] at h4
        cases h4
        rfl
      | null => rw [hni] at h4; cases h4
      | bool b => rw [hni] at h4; cases h4
      | str x => rw [hni] at h4; cases h4
      | arr xs => rw [hni] at h4; cases h4
      | obj kvs2 => rw [hni] at h4; cases h4
  | null => rw [htd] at h2; cases h2
  | bool b => rw [htd] at h2; cases h2
  | int n2 => rw [htd] at h2; cases h2
  | str x => rw [htd] at h2; cases h2
  | obj kvs2 => rw [htd] at h2; cases h2

/-- A store whose counter equals the id of a stored record. -/
def exCollideStore : TodoStorage :=
  { todos := [exPendingItem], next_id := 1 }

/-- C10 amended: the constructor sets the counter to exactly the file
next_id value (1 when the key is absent), with no reconciliation against
the loaded record ids; consequently, when the counter equals the id of
some stored record, the next add call assigns an id already present in
the collection (a counter merely not greater than every stored id need
not collide, per c10_counterexample). -/
theorem c10_amended_next_id (now now2 title descr prio : String)
    (kvs1 kvs2 : List (String × Json)) (n : Int) (s1 s2 s3 : TodoStorage)
    (h1 : load (FileContent.parsed (Json.obj kvs1)) now = Except.ok s1)
    (h1b : kvs1.lookup "next_id" = some (Json.int n))
    (h2 : load (FileContent.parsed (Json.obj kvs2)) now = Except.ok s2)
    (h2b : kvs2.lookup "next_id" = none)
    (h3 : ∃ t ∈ s3.todos, t.id = s3.next_id) :
    s1.next_id = n ∧ s2.next_id = 1 ∧
    (add_todo s3 now2 title descr prio).2.id ∈ s3.todos.map TodoItem.id := by
  refine ⟨?_, ?_, ?_⟩
  · have hn := loadTry_next_id (load_parsed_ok h1)
    rw [h1b] at hn
    exact Json.int.inj hn
  · have hn := loadTry_next_id (load_parsed_ok h2)
    rw [h2b] at hn
    exact Json.int.inj hn
  · obtain ⟨t, ht, hid⟩ := h3
    rw [add_todo_snd_id]
    exact List.mem_map.mpr ⟨t, ht, hid⟩

/-- Witness for C10 amended at concrete files and stores. -/
theorem c10_amended_next_id_witness :
    c10Store.next_id = 3 ∧ emptyStore.next_id = 1 ∧
    (add_todo exCollideStore "T2" "b" "" "medium").2.id
      ∈ exCollideStore.todos.map TodoItem.id :=
  c10_amended_next_id "T" "T2" "b" "" "medium"
    [("todos", Json.arr [Json.obj [("id", Json.int 5), ("title", Json.str "a")]]),
     ("next_id", Json.int 3)]
    [("todos", Json.arr [])] 3 c10Store emptyStore exCollideStore
    rfl rfl rfl rfl (by decide)

/-! Well-formedness of tool arguments: the keys and Json shapes the
declared input schemas describe (minus the priority enum constraint,
which nothing on the server side enforces). -/

/-- True on string-shaped Json values. -/
def isStr : Json → Bool
  | .str _ => true
  | _ => false

/-- True on integer-shaped Json values. -/
def isInt : Json → Bool
  | .int _ => true
  | _ => false

/-- True on boolean-shaped Json values. -/
def isBool : Json → Bool
  | .bool _ => true
  | _ => false

/-- True on values that can land in the optional completed_at field. -/
def isOptStr : Json → Bool
  | .null => true
  | .str _ => true
  | _ => false

/-- True when the supplied value fits the field a key names (any value
fits a key that names no field). -/
def assignOk (k : String) (v : Json) : Bool :=
  if k = "id" then isInt v
  else if k = "title" then isStr v
  else if k = "description" then isStr v
  else if k = "completed" then isBool v
  else if k = "created_at" then isStr v
  else if k = "completed_at" then isOptStr v
  else if k = "priority" then isStr v
  else true

/-- True when the arguments carry an integer id, as the id-taking tools
require. -/
def hasIntId (args : List (String × Json)) : Bool :=
  match args.lookup "id" with
  | some v => isInt v
  | none => false

/-- Well-formed arguments per operation name, mirroring the branch order
of handle_call_tool: add_todo needs a string title and string values for
description and priority when supplied; the id-taking tools need an
integer id; update_todo additionally needs every non-id value to fit the
field its key names; list_todos and unknown names accept anything. -/
def argsOk (name : String) (args : List (String × Json)) : Bool :=
  if name = "add_todo" then
    (match args.lookup "title" with
     | some v => isStr v
     | none => false) &&
    (match args.lookup "description" with
     | some v => isStr v
     | none => true) &&
    (match args.lookup "priority" with
     | some v => isStr v
     | none => true)
  else if name = "list_todos" then true
  else if name = "get_todo" then hasIntId args
  else if name = "update_todo" then
    hasIntId args && args.all (fun kv => kv.1 == "id" || assignOk kv.1 kv.2)
  else if name = "complete_todo" then hasIntId args
  else if name = "uncomplete_todo" then hasIntId args
  else if name = "delete_todo" then hasIntId args
  else true

/-- True when a priority string is one of the three the emoji dict
knows. -/
def priorityOk (p : String) : Bool :=
  p == "low" || p == "medium" || p == "high"

/-- True when every record of the store has a priority the emoji dict
knows. -/
def prioritiesOk (s : TodoStorage) : Bool :=
  s.todos.all (fun t => priorityOk t.priority)

lemma getStr_ok {v : Json} (h : isStr v = true) : ∃ x, getStr v = Except.ok x := by
  cases v with
  | str x => exact ⟨x, rfl⟩
  | null => cases h
  | bool b => cases h
  | int n => cases h
  | arr xs => cases h
  | obj kvs => cases h

lemma getInt_ok {v : Json} (h : isInt v = true) : ∃ n, getInt v = Except.ok n := by
  cases v with
  | int n => exact ⟨n, rfl⟩
  | null => cases h
  | bool b => cases h
  | str x => cases h
  | arr xs => cases h
  | obj kvs => cases h

lemma getBool_ok {v : Json} (h : isBool v = true) : ∃ b, getBool v = Except.ok b := by
  cases v with
  | bool b => exact ⟨b, rfl⟩
  | null => cases h
  | int n => cases h
  | str x => cases h
  | arr xs => cases h
  | obj kvs => cases h

lemma getOptStr_ok {v : Json} (h : isOptStr v = true) :
    ∃ o, getOptStr v = Except.ok o := by
  cases v with
  | null => exact ⟨none, rfl⟩
  | str x => exact ⟨some x, rfl⟩
  | bool b => cases h
  | int n => cases h
  | arr xs => cases h
  | obj kvs => cases h

lemma dictGetD_str_ok {args : List (String × Json)} {k : String} (dflt : String)
    (h : (match args.lookup k with
          | some v => isStr v
          | none => true) = true) :
    ∃ x, getStr (dictGetD args k (Json.str dflt)) = Except.ok x := by
  unfold dictGetD
  cases hl : args.lookup k with
  | none => exact ⟨dflt, rfl⟩
  | some v =>
    rw [hl] at h
    have h2 : isStr v = true := h
    obtain ⟨x, hx⟩ := getStr_ok h2
    exact ⟨x, hx⟩

lemma hasIntId_ok {args : List (String × Json)} (h : hasIntId args = true) :
    ∃ v n, dictGetItem args "id" = Except.ok v ∧ getInt v = Except.ok n := by
  unfold hasIntId at h
  cases hl : args.lookup "id" with
  | none => rw [hl] at h; cases h
  | some v =>
    rw [hl] at h
    have h2 : isInt v = true := h
    obtain ⟨n, hn⟩ := getInt_ok h2
    exact ⟨v, n, by unfold dictGetItem; rw [hl], hn⟩

lemma priorityEmoji_ok {p : String} (h : priorityOk p = true) :
    ∃ em, priorityEmoji p = Except.ok em := by
  unfold priorityOk at h
  simp only [Bool.or_eq_true, beq_iff_eq] at h
  rcases h with (h | h) | h <;> subst h <;> exact ⟨_, rfl⟩

lemma formatTodoLine_ok {t : TodoItem} (h : priorityOk t.priority = true) :
    ∃ ls, formatTodoLine t = Except.ok ls := by
  obtain ⟨em, hem⟩ := priorityEmoji_ok h
  unfold formatTodoLine
  rw [hem]
  exact ⟨_, rfl⟩

lemma formatLines_ok {ts : List TodoItem}
    (h : ∀ t ∈ ts, priorityOk t.priority = true) :
    ∃ ls, formatLines ts = Except.ok ls := by
  induction ts with
  | nil => exact ⟨[], rfl⟩
  | cons t ts ih =>
    obtain ⟨l, hl⟩ := formatTodoLine_ok (h t (by simp))
    obtain ⟨rest, hrest⟩ := ih (fun u hu => h u (by simp [hu]))
    refine ⟨l ++ rest, ?_⟩
    show (match formatTodoLine t with
      | Except.error e => Except.error e
      | Except.ok l =>
        match formatLines ts with
        | Except.error e => Except.error e
        | Except.ok rest => Except.ok (l ++ rest)) = Except.ok (l ++ rest)
    rw [hl]
    show (match formatLines ts with
      | Except.error e => Except.error e
      | Except.ok rest => Except.ok (l ++ rest)) = Except.ok (l ++ rest)
    rw [hrest]

lemma listFiltered_mem {todos : List TodoItem} {arguments : List (String × Json)}
    {t : TodoItem} (ht : t ∈ listFiltered todos arguments) : t ∈ todos := by
  cases hc : arguments.lookup "completed" with
  | none =>
    cases hq : arguments.lookup "priority" with
    | none =>
      simp only [listFiltered, hc, hq] at ht
      exact ht
    | some v =>
      simp only [listFiltered, hc, hq] at ht
      exact (List.mem_filter.mp ht).1
  | some w =>
    cases hq : arguments.lookup "priority" with
    | none =>
      simp only [listFiltered, hc, hq] at ht
      exact (List.mem_filter.mp ht).1
    | some v =>
      simp only [listFiltered, hc, hq] at ht
      exact (List.mem_filter.mp (List.mem_filter.mp ht).1).1

lemma toAssign_ok {k : String} {v : Json} (h : assignOk k v = true) :
    ∃ a, toAssign k v = Except.ok a := by
  unfold assignOk at h
  unfold toAssign
  by_cases h1 : k = "id"
  · rw [if_pos h1] at h ⊢
    obtain ⟨n, hn⟩ := getInt_ok h
    refine ⟨Assign.id n, ?_⟩
    rw [hn]
    rfl
  · rw [if_neg h1] at h ⊢
    by_cases h2 : k = "title"
    · rw [if_pos h2] at h ⊢
      obtain ⟨x, hx⟩ := getStr_ok h
      refine ⟨Assign.title x, ?_⟩
      rw [hx]
      rfl
    · rw [if_neg h2] at h ⊢
      by_cases h3 : k = "description"
      · rw [if_pos h3] at h ⊢
        obtain ⟨x, hx⟩ := getStr_ok h
        refine ⟨Assign.description x, ?_⟩
        rw [hx]
        rfl
      · rw [if_neg h3] at h ⊢
        by_cases h4 : k = "completed"
        · rw [if_pos h4] at h ⊢
          obtain ⟨b, hb⟩ := getBool_ok h
          refine ⟨Assign.completed b, ?_⟩
          rw [hb]
          rfl
        · rw [if_neg h4] at h ⊢
          by_cases h5 : k = "created_at"
          · rw [if_pos h5] at h ⊢
            obtain ⟨x, hx⟩ := getStr_ok h
            refine ⟨Assign.created_at x, ?_⟩
            rw [hx]
            rfl
          · rw [if_neg h5] at h ⊢
            by_cases h6 : k = "completed_at"
            · rw [if_pos h6] at h ⊢
              obtain ⟨o, ho⟩ := getOptStr_ok h
              refine ⟨Assign.completed_at o, ?_⟩
              rw [ho]
              rfl
            · rw [if_neg h6] at h ⊢
              by_cases h7 : k = "priority"
              · rw [if_pos h7] at h ⊢
                obtain ⟨x, hx⟩ := getStr_ok h
                refine ⟨Assign.priority x, ?_⟩
                rw [hx]
                rfl
              · rw [if_neg h7]
                exact ⟨Assign.unknownKey k v, rfl⟩

lemma toAssigns_ok {l : List (String × Json)}
    (h : ∀ kv ∈ l, assignOk kv.1 kv.2 = true) :
    ∃ kwargs, toAssigns l = Except.ok kwargs := by
  induction l with
  | nil => exact ⟨[], rfl⟩
  | cons kv rest ih =>
    obtain ⟨a, ha⟩ := toAssign_ok (h kv (by simp))
    obtain ⟨tl, htl⟩ := ih (fun u hu => h u (by simp [hu]))
    refine ⟨a :: tl, ?_⟩
    show (do
      let a2 ← toAssign kv.1 kv.2
      let tl2 ← toAssigns rest
      Except.ok (a2 :: tl2)) = Except.ok (a :: tl)
    rw [ha]
    show (do
      let tl2 ← toAssigns rest
      Except.ok (a :: tl2)) = Except.ok (a :: tl)
    rw [htl]
    rfl

/-- C9 amended: provided every record in the store has one of the three
priorities the emoji dict knows, every call with schema-shaped arguments
(argsOk) returns a text result without raising, whatever the operation
name (unknown names give the unknown-tool text); but a record with any
other priority string is reachable, because add_todo does not validate
priority, and then list_todos raises an uncaught KeyError at the emoji
lookup (c9_counterexample). -/
theorem c9_amended_no_crash (s : TodoStorage) (now name : String)
    (args : List (String × Json))
    (hp : prioritiesOk s = true) (ha : argsOk name args = true) :
    ∃ r, handle_call_tool s now name args = Except.ok r := by
  have hpm : ∀ t ∈ s.todos, priorityOk t.priority = true := by
    have h2 := hp
    unfold prioritiesOk at h2
    exact List.all_eq_true.mp h2
  by_cases h1 : name = "add_todo"
  · subst h1
    have ha2 : (((match args.lookup "title" with
          | some v => isStr v
          | none => false) &&
        (match args.lookup "description" with
          | some v => isStr v
          | none => true)) &&
        (match args.lookup "priority" with
          | some v => isStr v
          | none => true)) = true := ha
    rw [Bool.and_eq_true, Bool.and_eq_true] at ha2
    obtain ⟨⟨hT, hD⟩, hP⟩ := ha2
    cases hlt : args.lookup "title" with
    | none => rw [hlt] at hT; cases hT
    | some v =>
      rw [hlt] at hT
      have hT2 : isStr v = true := hT
      obtain ⟨x, hx⟩ := getStr_ok hT2
      obtain ⟨d, hd⟩ := dictGetD_str_ok "" hD
      obtain ⟨p, hp2⟩ := dictGetD_str_ok "medium" hP
      have hdi : dictGetItem args "title" = Except.ok v := by
        unfold dictGetItem
        rw [hlt]
      refine ⟨((add_todo s now x d p).1,
        ["Added todo item #" ++ toString (add_todo s now x d p).2.id ++ ": "
          ++ (add_todo s now x d p).2.title]), ?_⟩
      simp only [handle_call_tool, hdi, hx, hd, hp2]
      rfl
  · by_cases h2 : name = "list_todos"
    · subst h2
      by_cases hemp : (listFiltered (get_all_todos s) args).isEmpty
      · refine ⟨(s, ["No todos found"]), ?_⟩
        simp only [handle_call_tool]
        rw [if_pos hemp]
        rfl
      · obtain ⟨ls, hls⟩ := @formatLines_ok (listFiltered (get_all_todos s) args)
          (fun t ht => hpm t (listFiltered_mem ht))
        refine ⟨(s, ["Todo List:\n" ++ String.intercalate "\n" ls]), ?_⟩
        simp only [handle_call_tool]
        rw [if_neg hemp]
        simp only [hls]
        rfl
    · by_cases h3 : name = "get_todo"
      · subst h3
        simp only [argsOk] at ha
        obtain ⟨v, n, hdi, hn⟩ := hasIntId_ok ha
        cases hg : get_todo s n with
        | none =>
          refine ⟨(s, ["Todo item #" ++ toString n ++ " not found"]), ?_⟩
          simp only [handle_call_tool, hdi, hn, hg]
          rfl
        | some todo =>
          have hg2 : s.todos.find? (fun t => t.id == n) = some todo := hg
          have hm := hpm todo (List.mem_of_find?_eq_some hg2)
          obtain ⟨em, hem⟩ := priorityEmoji_ok hm
          refine ⟨(s, [String.intercalate "\n"
            (["Todo #" ++ toString todo.id,
              "Title: " ++ todo.title,
              "Description: "
                ++ (if todo.description ≠ "" then todo.description else "None"),
              "Status: " ++ (if todo.completed then "Completed" else "Pending"),
              "Priority: " ++ em ++ " " ++ pyTitle todo.priority,
              "Created: " ++ todo.created_at] ++
             (match todo.completed_at with
              | some ca => if ca ≠ "" then ["Completed: " ++ ca] else []
              | none => []))]), ?_⟩
          simp only [handle_call_tool, hdi, hn, hg, hem]
          rfl
      · by_cases h4 : name = "update_todo"
        · subst h4
          have ha2 : (hasIntId args &&
              args.all (fun kv => kv.1 == "id" || assignOk kv.1 kv.2)) = true := ha
          rw [Bool.and_eq_true] at ha2
          obtain ⟨haid, hall⟩ := ha2
          obtain ⟨v, n, hdi, hn⟩ := hasIntId_ok haid
          have hassign : ∀ kv ∈ args.filter
              (fun kv : String × Json => kv.1 != "id"),
              assignOk kv.1 kv.2 = true := by
            intro kv hkv
            have hm := List.mem_of_mem_filter hkv
            have hne := List.of_mem_filter hkv
            have hor := List.all_eq_true.mp hall kv hm
            simp only [Bool.or_eq_true, beq_iff_eq] at hor
            rcases hor with hbad | hok
            · exact absurd hbad (by simpa using hne)
            · exact hok
          obtain ⟨kwargs, hkw⟩ := toAssigns_ok hassign
          cases hu : update_todo s n kwargs with
          | mk s2 r =>
            cases r with
            | none =>
              refine ⟨(s2, ["Todo item #" ++ toString n ++ " not found"]), ?_⟩
              simp only [handle_call_tool, hdi, hn, hkw, hu]
              rfl
            | some todo =>
              refine ⟨(s2, ["Updated todo item #" ++ toString todo.id ++ ": "
                ++ todo.title]), ?_⟩
              simp only [handle_call_tool, hdi, hn, hkw, hu]
              rfl
        · by_cases h5 : name = "complete_todo"
          · subst h5
            simp only [argsOk] at ha
            obtain ⟨v, n, hdi, hn⟩ := hasIntId_ok ha
            cases hc : complete_todo s n now with
            | mk s2 r =>
              cases r with
              | none =>
                refine ⟨(s2, ["Todo item #" ++ toString n ++ " not found"]), ?_⟩
                simp only [handle_call_tool, hdi, hn, hc]
                rfl
              | some todo =>
                refine ⟨(s2, ["Completed todo item #" ++ toString todo.id ++ ": "
                  ++ todo.title]), ?_⟩
                simp only [handle_call_tool, hdi, hn, hc]
                rfl
          · by_cases h6 : name = "uncomplete_todo"
            · subst h6
              simp only [argsOk] at ha
              obtain ⟨v, n, hdi, hn⟩ := hasIntId_ok ha
              cases hc : uncomplete_todo s n with
              | mk s2 r =>
                cases r with
                | none =>
                  refine ⟨(s2, ["Todo item #" ++ toString n ++ " not found"]), ?_⟩
                  simp only [handle_call_tool, hdi, hn, hc]
                  rfl
                | some todo =>
                  refine ⟨(s2, ["Uncompleted todo item #" ++ toString todo.id ++ ": "
                    ++ todo.title]), ?_⟩
                  simp only [handle_call_tool, hdi, hn, hc]
                  rfl
            · by_cases h7 : name = "delete_todo"
              · subst h7
                simp only [argsOk] at ha
                obtain ⟨v, n, hdi, hn⟩ := hasIntId_ok ha
                cases hc : delete_todo s n with
                | mk s2 r =>
                  cases r with
                  | false =>
                    refine ⟨(s2, ["Todo item #" ++ toString n ++ " not found"]), ?_⟩
                    simp only [handle_call_tool, hdi, hn, hc]
                    rfl
                  | true =>
                    refine ⟨(s2, ["Deleted todo item #" ++ toString n]), ?_⟩
                    simp only [handle_call_tool, hdi, hn, hc]
                    rfl
              · refine ⟨(s, ["Unknown tool: " ++ name]), ?_⟩
                simp only [handle_call_tool]
                rw [if_neg h1, if_neg h2, if_neg h3, if_neg h4, if_neg h5,
                  if_neg h6, if_neg h7]

/-- The store after adding a record with the unvalidated priority string
urgent through the dispatcher. -/
def exUrgentStore : TodoStorage := (add_todo emptyStore "T" "x" "" "urgent").1

/-- C9 counterexample: a well-formed add_todo call with the priority
string urgent succeeds (add does not validate priority) and returns its
text, and the very next list_todos call on the resulting store raises an
uncaught KeyError at the priority-emoji lookup instead of returning a
text result. -/
theorem c9_counterexample :
    handle_call_tool emptyStore "T" "add_todo"
        [("title", Json.str "x"), ("priority", Json.str "urgent")]
      = Except.ok (exUrgentStore, ["Added todo item #1: x"]) ∧
    handle_call_tool exUrgentStore "T" "list_todos" []
      = Except.error PyErr.keyError := by
  constructor <;> rfl

/-- Witness for C9 amended at a concrete store and call. -/
theorem c9_amended_no_crash_witness :
    ∃ r, handle_call_tool exPendingStore "T" "get_todo" [("id", Json.int 1)]
      = Except.ok r :=
  c9_amended_no_crash exPendingStore "T" "get_todo" [("id", Json.int 1)]
    (by decide) (by decide)

end TodoSpec
